import Mathlib

/-!
Verification of the resilient structured-extraction pipeline shared by the
document-analysis tools in this repository (invoice extraction, resume
screening, MCQ generation, ticket classification).

The Python code is shallowly embedded: text is modelled as `List Char`
(`Str`), Python string primitives (`strip`, `startswith`, slicing, `in`,
`split`) are modelled directly, the regular expressions used by the code are
modelled by explicit left-to-right scanning functions that mirror the
backtracking behaviour of `re.search` on these concrete patterns, and the
external JSON decoder `json.loads` is an abstract parameter `J` (an
`Except`-valued function: `.error` models a raised `JSONDecodeError`).
A raised Python exception is modelled as `Except.error`.
-/

deriving instance DecidableEq for Except

namespace LCP

/-- Python strings, modelled as lists of characters. -/
abbrev Str := List Char

/-- Python slice `s[:-n]`: drop the last `n` characters (empty when
`n ≥ |s|`, exactly as in Python after index clamping). -/
def pyDropLast (n : Nat) (s : Str) : Str := s.take (s.length - n)

/-- Python's default whitespace set for `str.strip` and `\s` (ASCII part). -/
def pySpace (c : Char) : Bool :=
  c = ' ' || c = '\t' || c = '\n' || c = '\r' || c = '\x0b' || c = '\x0c'

/-- Python `s.strip()` on the left. -/
def stripL (s : Str) : Str := s.dropWhile pySpace

/-- Python `s.strip()` on the right. -/
def stripR (s : Str) : Str := (s.reverse.dropWhile pySpace).reverse

/-- Python `s.strip()`. -/
def pyStrip (s : Str) : Str := stripR (stripL s)

/-- Python `s.startswith(p)`. -/
def pyStarts (p s : Str) : Bool := decide (s.take p.length = p)

/-- Case-insensitive `startswith`, for `re.IGNORECASE` literals
(the literal `p` is given in lower case). -/
def pyStartsCI (p s : Str) : Bool := decide ((s.take p.length).map Char.toLower = p)

/-- Python `p in s` (substring containment), by scanning every suffix. -/
def pyContainsSub (p : Str) : Str → Bool
  | [] => pyStarts p []
  | c :: rest => pyStarts p (c :: rest) || pyContainsSub p rest

/-- Python `c in s` for a single character. -/
def pyHasChar (c : Char) (s : Str) : Bool := s.contains c

/-- Numeric value of a digit run (`int()` of a `\d+` capture; Python's
`int` is arbitrary precision, so plain `Nat`). -/
def digitsToNat (d : Str) : Nat := d.foldl (fun n c => 10 * n + (c.toNat - 48)) 0

/-- The span matched by `re.search(r'\{.*\}', s, re.DOTALL)`: the leftmost
`{` that still has a `}` after it, through the last `}` of the string
(greedy `.*` with DOTALL). `none` when the pattern has no match. -/
def extractSpan (s : Str) : Option Str :=
  let u := (s.reverse.dropWhile (fun c => c ≠ '}')).reverse
  let t := u.dropWhile (fun c => c ≠ '{')
  if t.isEmpty then none else some t

-- sanity checks (concrete behaviour of the primitives)
example : pyStrip ("  ab c  ".data) = "ab c".data := by decide
example : extractSpan ("x\x7ba\x7dy\x7bb\x7dz".data) = some "\x7ba\x7dy\x7bb\x7d".data := by
  decide
example : extractSpan ("no braces".data) = none := by decide
example : extractSpan ("\x7d\x7b".data) = none := by decide
example : pyContainsSub ("bc".data) ("abcd".data) = true := by decide
example : digitsToNat ("99".data) = 99 := by decide

/-!
## Invoice extractor — `src/Invoice_Extractor/invoice_processor.py`

`extract_invoice_data` (the response-parsing stage, lines 100-119): the raw
model response is stripped, an assumed code fence is sliced off by fixed
offsets, `json.loads` is attempted on the whole string, and on
`JSONDecodeError` the fallback searches `re.search(r'\{.*\}', ..., DOTALL)`
and attempts `json.loads` on the matched span; if the span also fails to
decode the error propagates, and if no span exists the code raises
`Exception("Unable to parse JSON from model response")`.

A decoded JSON object is modelled as an association list from keys to
values; only its key structure matters to the claims, so values are plain
strings. `json.loads` itself is an abstract parameter `J`.
-/

/-- A decoded JSON object: association list of string keys to (simplified)
string values, as returned by `json.loads` for the invoice task. -/
abbrev JsonObj := List (Str × Str)

/-- The fence-cleaning prelude of `extract_invoice_data`
(`invoice_processor.py` lines 102-106):
`response.strip()`, then `response[7:-3]` when it starts with three
backticks followed by a newline, else `response[3:-3]` when it starts with
three backticks. Python slice `s[a:-b]` is `(s.drop a).dropLast b`. -/
def stripInvoiceResponse (response : Str) : Str :=
  let r := pyStrip response
  if pyStarts ("```\n".data) r then pyDropLast 3 (r.drop 7)
  else if pyStarts ("```".data) r then pyDropLast 3 (r.drop 3)
  else r

/-- The response-parsing stage of `extract_invoice_data`
(`invoice_processor.py` lines 100-119). `J` models `json.loads`
(`.error` is a raised `JSONDecodeError`); the result's `.error` models the
exception the Python code raises (after the outer handler re-wraps it). -/
def extract_invoice_data (J : Str → Except Unit JsonObj) (response : Str) :
    Except Str JsonObj :=
  let r := stripInvoiceResponse response
  match J r with
  | .ok data => .ok data
  | .error _ =>
    match extractSpan r with
    | some span =>
      match J span with
      | .ok data => .ok data
      | .error _ => .error ("Error processing invoice: json decode error".data)
    | none => .error ("Unable to parse JSON from model response".data)

/-- Batch wrapper input: an uploaded file, with `content` standing for the
text the (external) PDF extraction yields for it. -/
structure PFile where
  name : Str
  content : Str
deriving DecidableEq

/-- One entry of the invoice batch result list: either the parsed data with
the filename added (`data['filename'] = pdf_file.name`), or the error
record `\x7b'filename': ..., 'error': ...\x7d`. -/
inductive InvResult where
  | ok (filename : Str) (data : JsonObj)
  | err (filename : Str) (message : Str)
deriving DecidableEq

/-- Source `InvoiceProcessor.process_multiple_files` (`invoice_processor.py` lines
124-139): per-item try/except appending either the data or an error record,
in input order. The whole per-file pipeline (PDF text extraction, LLM call,
response parsing) is the parameter `pipe`; `.error` is a raised exception. -/
def process_multiple_files (pipe : PFile → Except Str JsonObj)
    (pdf_files : List PFile) : List InvResult :=
  pdf_files.map (fun f =>
    match pipe f with
    | .ok data => .ok f.name data
    | .error e => .err f.name e)

/-!
## MCQ maker — `src/MCQ-Maker/app.py`

`parse_text_response` (lines 154-192) is the heuristic line parser;
`parse_mcq_response` (lines 139-152) searches for a JSON span first and
falls back to `parse_text_response` when there is no span or the span does
not decode.
-/

/-- One generated question, as built by the fallback parser. -/
structure MCQ where
  question : Str
  options : List Str
  correct_answer : Str
  explanation : Str
deriving DecidableEq

/-- The dict `\x7b"questions": [...]\x7d` returned by `parse_text_response`. -/
structure MCQData where
  questions : List MCQ
deriving DecidableEq

/-- The option markers `('A)', 'B)', 'C)', 'D)')` of `parse_text_response`. -/
def optionMarkers : List Str := [['A', ')'], ['B', ')'], ['C', ')'], ['D', ')']]

/-- Python `line.startswith(('A)', 'B)', 'C)', 'D)'))`. -/
def isOptionLine (l : Str) : Bool := optionMarkers.any (fun m => pyStarts m l)

/-- Python `response.split('\n')` (structural, so it reduces in the
kernel; `split` on an explicit separator keeps empty pieces). -/
def splitLines : Str → List Str
  | [] => [[]]
  | c :: rest =>
    if c = '\n' then [] :: splitLines rest
    else
      match splitLines rest with
      | [] => [[c]]
      | h :: t => (c :: h) :: t

/-- The append guarded by `if current_question and current_options:`
(Python truthiness: non-empty string and non-empty list). -/
def flushQ (curQ : Option Str) (curOpts : List Str) : List MCQ :=
  match curQ with
  | none => []
  | some q =>
    if q.isEmpty || curOpts.isEmpty then []
    else [{ question := q, options := curOpts,
            correct_answer := ['A'],
            explanation := "Please verify the correct answer.".data }]

/-- The line loop of `parse_text_response` (`app.py` lines 162-190),
carrying `current_question` and `current_options`; the final flush of lines
183-190 is the `[]` case. -/
def parseLines : List Str → Option Str → List Str → List MCQ
  | [], curQ, curOpts => flushQ curQ curOpts
  | line :: rest, curQ, curOpts =>
    if (pyStrip line).isEmpty then parseLines rest curQ curOpts
    else if pyHasChar '?' (pyStrip line) && !isOptionLine (pyStrip line) then
      flushQ curQ curOpts ++ parseLines rest (some (pyStrip line)) []
    else if isOptionLine (pyStrip line) then
      parseLines rest curQ (curOpts ++ [pyStrip line])
    else parseLines rest curQ curOpts

/-- Source `parse_text_response` (`MCQ-Maker/app.py` lines 154-192). -/
def parse_text_response (response : Str) : MCQData :=
  { questions := parseLines (splitLines response) none [] }

/-- Result of `parse_mcq_response`: either the raw `json.loads` value of the
recovered span (returned as-is), or the fallback parser's dict. -/
inductive MCQParsed (α : Type) where
  | jsonData (v : α)
  | textData (d : MCQData)
deriving DecidableEq

/-- Source `parse_mcq_response` (`MCQ-Maker/app.py` lines 139-152). `J` models
`json.loads` on the span (abstract result type `α`, `.error` a raised
`JSONDecodeError`, which the code catches); the outer `Except` mirrors the
Python control flow, where an uncaught exception would surface as
`.error`. -/
def parse_mcq_response {α : Type} (J : Str → Except Unit α) (response : Str) :
    Except Str (MCQParsed α) :=
  match extractSpan response with
  | some span =>
    match J span with
    | .ok v => .ok (.jsonData v)
    | .error _ => .ok (.textData (parse_text_response response))
  | none => .ok (.textData (parse_text_response response))

-- sanity checks
example :
    parse_text_response ("Intro text\nWhat is 2+2?\nA) 3\nB) 4\nNo options here?".data) =
      { questions := [{ question := "What is 2+2?".data,
                        options := ["A) 3".data, "B) 4".data],
                        correct_answer := ['A'],
                        explanation := "Please verify the correct answer.".data }] } := by
  decide

example :
    extract_invoice_data (fun _ => .error ()) ("hello".data) =
      .error ("Unable to parse JSON from model response".data) := by
  decide

/-!
## HR resume screener — `src/HR-Resume-Screener/app.py`

The two field extractors (lines 135-157 and 159-177) scrape the analysis
text with `re.search`. Each concrete pattern is modelled by an at-position
matcher tried at every suffix, leftmost first, which is exactly
`re.search`'s behaviour for these patterns (their character classes are
disjoint from the literals that follow, so regex backtracking can never
produce a different match). `\s` is Python's whitespace class and `\d`
ASCII digits.
-/

/-- Model of `re.search` for an at-position matcher `p`: leftmost suffix where `p`
matches. -/
def reScan {α : Type} (p : Str → Option α) : Str → Option α
  | [] => p []
  | c :: rest =>
    match p (c :: rest) with
    | some v => some v
    | none => reScan p rest

/-- Pattern `(\d+)` at the current position: the maximal digit run and the rest. -/
def digitRun (s : Str) : Option (Nat × Str) :=
  let d := s.takeWhile Char.isDigit
  if d.isEmpty then none else some (digitsToNat d, s.drop d.length)

/-- Case-insensitive substring test, for `re.search(..., re.IGNORECASE)` on
an alternation of plain literals (`p` given in lower case). -/
def pyContainsSubCI (p s : Str) : Bool := pyContainsSub p (s.map Char.toLower)

/-- Pattern `MATCH SCORE:\s*(\d+)` at the current position. -/
def scoreP1At (s : Str) : Option Nat :=
  if pyStarts ("MATCH SCORE:".data) s then
    (digitRun ((s.drop 12).dropWhile pySpace)).map (fun x => x.1)
  else none

/-- Pattern `score[:\s]+(\d+)` (IGNORECASE) at the current position. -/
def scoreP2At (s : Str) : Option Nat :=
  if pyStartsCI ("score".data) s then
    let rest := s.drop 5
    let sep := rest.takeWhile (fun c => c = ':' || pySpace c)
    if sep.isEmpty then none
    else (digitRun (rest.drop sep.length)).map (fun x => x.1)
  else none

/-- Pattern `(\d+)/10` at the current position. -/
def scoreP3At (s : Str) : Option Nat :=
  match digitRun s with
  | some (n, rest) => if pyStarts ("/10".data) rest then some n else none
  | none => none

/-- Pattern `(\d+)\s*out\s*of\s*10` (IGNORECASE) at the current position. -/
def scoreP4At (s : Str) : Option Nat :=
  match digitRun s with
  | some (n, rest) =>
    let r1 := rest.dropWhile pySpace
    if pyStartsCI ("out".data) r1 then
      let r2 := (r1.drop 3).dropWhile pySpace
      if pyStartsCI ("of".data) r2 then
        let r3 := (r2.drop 2).dropWhile pySpace
        if pyStarts ("10".data) r3 then some n else none
      else none
    else none
  | none => none

/-- Source `ResumeAnalyzer.parse_score_from_analysis` (`HR-Resume-Screener/app.py`
lines 135-157): the `MATCH SCORE` pattern first, then the alternative
patterns in order, then the default `5`. `int()` of a digit capture cannot
raise, so the `except` clause is unreachable. -/
def parse_score_from_analysis (analysis : Str) : Nat :=
  match reScan scoreP1At analysis with
  | some n => n
  | none =>
    match reScan scoreP2At analysis with
    | some n => n
    | none =>
      match reScan scoreP3At analysis with
      | some n => n
      | none =>
        match reScan scoreP4At analysis with
        | some n => n
        | none => 5

/-- Pattern `RECOMMENDATION:\s*([A-Z]+)` at the current position. -/
def recTagAt (s : Str) : Option Str :=
  if pyStarts ("RECOMMENDATION:".data) s then
    let r := (s.drop 15).dropWhile pySpace
    let caps := r.takeWhile (fun c => 'A' ≤ c && c ≤ 'Z')
    if caps.isEmpty then none else some caps
  else none

/-- Source `ResumeAnalyzer.parse_recommendation_from_analysis`
(`HR-Resume-Screener/app.py` lines 159-177). -/
def parse_recommendation_from_analysis (analysis : Str) : Str :=
  match reScan recTagAt analysis with
  | some r => r
  | none =>
    if pyContainsSubCI ("hire".data) analysis
        || pyContainsSubCI ("recommend".data) analysis then "HIRE".data
    else if pyContainsSubCI ("interview".data) analysis then "INTERVIEW".data
    else if pyContainsSubCI ("reject".data) analysis then "REJECT".data
    else "REVIEW".data

/-- Source `ResumeAnalyzer.analyze_resume` (lines 116-125): runs the completion
chain on the truncated resume text and converts any raised exception into
the string `"Analysis error: ..."`. `chainRun` models `self.chain.run`
with the job description closed over; `.error` is a raised exception. -/
def analyze_resume (chainRun : Str → Except Str Str) (resume_text : Str) : Str :=
  match chainRun (resume_text.take 4000) with
  | .ok response => response
  | .error e => "Analysis error: ".data ++ e

/-- Source `ResumeAnalyzer.extract_key_info` (lines 127-133), same shape. -/
def extract_key_info (chainRun2 : Str → Except Str Str) (resume_text : Str) : Str :=
  match chainRun2 (resume_text.take 3000) with
  | .ok response => response
  | .error e => "Extraction error: ".data ++ e

/-- One entry of the resume batch result list (the dict built at
`app.py` lines 206-213). -/
structure HRResult where
  filename : Str
  score : Nat
  recommendation : Str
  analysis : Str
  key_info : Str
  resume_text_preview : Str
deriving DecidableEq

/-- Stable insertion of `x` (the original-earlier element) into a list
already sorted by score descending: `x` goes after every strictly greater
score and before the first equal-or-smaller one. -/
def insertByScoreDesc (x : HRResult) : List HRResult → List HRResult
  | [] => [x]
  | y :: ys =>
    if x.score < y.score then y :: insertByScoreDesc x ys
    else x :: y :: ys

/-- Python `sorted(results, key=lambda x: x['score'], reverse=True)`
(`app.py` line 220). Python's `sorted` is specified to be a stable sort
(also with `reverse=True`), and a stable sort by a fixed key is
extensionally unique, so stable insertion sort on the descending score
order is an exact model. -/
def sortByScoreDesc : List HRResult → List HRResult
  | [] => []
  | x :: xs => insertByScoreDesc x (sortByScoreDesc xs)

/-- Source `BatchProcessor.process_multiple_resumes` (`app.py` lines 184-220):
per file, extract text (skipping the file entirely when the extracted text
is empty — `if resume_text:`), analyze once, scrape score and
recommendation from that analysis, append; finally return the result list
sorted by score descending. `extractText` models
`ResumeParser.extract_text_from_pdf` (which returns `""` on extraction
errors), `chainRun`/`chainRun2` the two LLM chains. -/
def process_multiple_resumes (extractText : PFile → Str)
    (chainRun chainRun2 : Str → Except Str Str)
    (resume_files : List PFile) : List HRResult :=
  let results := resume_files.filterMap (fun f =>
    let resume_text := extractText f
    if resume_text.isEmpty then none
    else
      let analysis := analyze_resume chainRun resume_text
      some { filename := f.name,
             score := parse_score_from_analysis analysis,
             recommendation := parse_recommendation_from_analysis analysis,
             analysis := analysis,
             key_info := extract_key_info chainRun2 resume_text,
             resume_text_preview := resume_text.take 500 ++ "...".data })
  sortByScoreDesc results

/-!
## Ticket classifier — `src/Ticketing-Sys/app.py`

`classify_text` (lines 30-54), response-handling part: `json.loads` on the
stripped model output, `data.get("category", "OTHER")` with a closed-enum
check, and on any exception a heuristic scan for a literal label in the
output, defaulting to `"OTHER"`. `J` models `json.loads` followed by
`.get("category", ...)`: `.ok (some c)` is a decoded dict with string
category `c`, `.ok none` a decoded dict without a usable string category,
`.error` any raised exception (decode failure, or `.get` on a non-dict). -/

/-- The closed label set `CATEGORIES` (`Ticketing-Sys/app.py` lines 9-16). -/
def CATEGORIES : List Str :=
  ["PRODUCT_BUG".data, "ACCOUNT_ACCESS".data, "BILLING".data,
   "FEATURE_REQUEST".data, "USAGE_QUESTION".data, "OTHER".data]

/-- Response handling of `classify_text` (`Ticketing-Sys/app.py` lines
42-54); `content` is the model's reply text. -/
def classify_text (J : Str → Except Unit (Option Str)) (content : Str) : Str :=
  match J (pyStrip content) with
  | .ok catOpt =>
    let category := catOpt.getD ("OTHER".data)
    if category ∈ CATEGORIES then category else "OTHER".data
  | .error _ =>
    match CATEGORIES.find? (fun cat => pyContainsSub cat content) with
    | some cat => cat
    | none => "OTHER".data

-- sanity checks against the spec's example scenarios
example :
    parse_score_from_analysis ("MATCH SCORE: 8\nmore\nRECOMMENDATION: HIRE - strong fit".data)
      = 8 := by decide
example :
    parse_recommendation_from_analysis
      ("MATCH SCORE: 8\nmore\nRECOMMENDATION: HIRE - strong fit".data) = "HIRE".data := by
  decide
example : parse_score_from_analysis [] = 5 := by decide
example : parse_score_from_analysis ("he scored 7/10 overall".data) = 7 := by decide
example : parse_recommendation_from_analysis [] = "REVIEW".data := by decide
example :
    classify_text (fun _ => .error ()) ("I think BILLING fits".data) = "BILLING".data := by
  decide

/-! ## Concrete inputs used by witnesses and counterexamples -/

/-- C4 counterexample inputs: two resumes whose texts extract fine; the
completion call (`self.chain.run`) raises for the first one and returns a
high-scoring analysis for the second. -/
def chainRunC4 : Str → Except Str Str := fun t =>
  if t = "t1".data then .error ("boom".data) else .ok ("MATCH SCORE: 9".data)

/-- C4 counterexample second chain (`extract_key_info`), always succeeding. -/
def chainRun2C4 : Str → Except Str Str := fun _ => .ok ("info".data)

/-- C4 witness inputs: file `a` makes the pipeline raise, file `b` parses. -/
def pipeC4 : PFile → Except Str JsonObj := fun f =>
  if f.name = ['a'] then .error ("E".data) else .ok []

/-- C4 witness batch. -/
def filesC4 : List PFile := [⟨['a'], []⟩, ⟨['b'], []⟩]

/-- C5 inputs: a response that is exactly a fenced valid JSON object. -/
def innerJsonC5 : Str := ['{', '"', 'a', '"', ':', ' ', '1', '}']

/-- The fenced response `(three backticks)\n ... \n(three backticks)`. -/
def fencedC5 : Str := "```\n".data ++ innerJsonC5 ++ "\n```".data

/-- A `json.loads` model that decodes exactly the fenced content. -/
def JC5 : Str → Except Unit JsonObj := fun s =>
  if s = innerJsonC5 then .ok [(['a'], ['1'])] else .error ()

/-- C7 counterexample decoder: `json.loads("\x7b\x7d")` is the empty dict. -/
def JC7 : Str → Except Unit JsonObj := fun s =>
  if s = ['{', '}'] then .ok [] else .error ()

/-- C6 witness decoder: decodes exactly the span `\x7b"a":1\x7d`. -/
def JC6 : Str → Except Unit JsonObj := fun s =>
  if s = '{' :: "\"a\":1".data ++ ['}'] then .ok [(['a'], ['1'])] else .error ()

/-! ## Helper lemmas -/

theorem mem_insertByScoreDesc {z x : HRResult} {l : List HRResult} :
    z ∈ insertByScoreDesc x l ↔ z = x ∨ z ∈ l := by
  induction l with
  | nil => simp [insertByScoreDesc]
  | cons y ys ih =>
    by_cases h : x.score < y.score
    · simp only [insertByScoreDesc, if_pos h, List.mem_cons, ih]
      tauto
    · simp only [insertByScoreDesc, if_neg h, List.mem_cons]

theorem pairwise_insertByScoreDesc {x : HRResult} {l : List HRResult}
    (h : List.Pairwise (fun a b => b.score ≤ a.score) l) :
    List.Pairwise (fun a b => b.score ≤ a.score) (insertByScoreDesc x l) := by
  induction l with
  | nil => simp [insertByScoreDesc]
  | cons y ys ih =>
    rcases List.pairwise_cons.mp h with ⟨hy, hys⟩
    by_cases hxy : x.score < y.score
    · simp only [insertByScoreDesc, if_pos hxy]
      refine List.pairwise_cons.mpr ⟨?_, ih hys⟩
      intro z hz
      rcases mem_insertByScoreDesc.mp hz with rfl | hz
      · exact Nat.le_of_lt hxy
      · exact hy z hz
    · simp only [insertByScoreDesc, if_neg hxy]
      refine List.pairwise_cons.mpr ⟨?_, h⟩
      intro z hz
      rcases List.mem_cons.mp hz with rfl | hz
      · exact Nat.le_of_not_lt hxy
      · exact Nat.le_trans (hy z hz) (Nat.le_of_not_lt hxy)

theorem pairwise_sortByScoreDesc (l : List HRResult) :
    List.Pairwise (fun a b => b.score ≤ a.score) (sortByScoreDesc l) := by
  induction l with
  | nil => simp [sortByScoreDesc]
  | cons x xs ih => exact pairwise_insertByScoreDesc ih

theorem sortByScoreDesc_of_pairwise {l : List HRResult}
    (h : List.Pairwise (fun a b => b.score ≤ a.score) l) :
    sortByScoreDesc l = l := by
  induction l with
  | nil => rfl
  | cons x xs ih =>
    rcases List.pairwise_cons.mp h with ⟨hx, hxs⟩
    have hxs' : sortByScoreDesc xs = xs := ih hxs
    cases xs with
    | nil => simp [sortByScoreDesc, insertByScoreDesc]
    | cons y ys =>
      have hy : ¬ x.score < y.score :=
        Nat.not_lt.mpr (hx y (List.mem_cons_self y ys))
      simp [sortByScoreDesc] at hxs' ⊢
      rw [hxs', insertByScoreDesc, if_neg hy]

theorem filter_insertByScoreDesc_pos {x : HRResult} {l : List HRResult}
    {p : HRResult → Bool} (hx : p x = true)
    (hgt : ∀ y : HRResult, x.score < y.score → p y = false) :
    (insertByScoreDesc x l).filter p = x :: l.filter p := by
  induction l with
  | nil => simp [insertByScoreDesc, List.filter, hx]
  | cons y ys ih =>
    by_cases h : x.score < y.score
    · have hpy : p y = false := hgt y h
      simp only [insertByScoreDesc, if_pos h, List.filter, hpy, ih]
    · simp only [insertByScoreDesc, if_neg h, List.filter, hx]

theorem filter_insertByScoreDesc_neg {x : HRResult} {l : List HRResult}
    {p : HRResult → Bool} (hx : p x = false) :
    (insertByScoreDesc x l).filter p = l.filter p := by
  induction l with
  | nil => simp [insertByScoreDesc, List.filter, hx]
  | cons y ys ih =>
    by_cases h : x.score < y.score
    · simp only [insertByScoreDesc, if_pos h, List.filter, ih]
    · simp only [insertByScoreDesc, if_neg h, List.filter, hx]

theorem filter_score_sortByScoreDesc (l : List HRResult) (n : Nat) :
    (sortByScoreDesc l).filter (fun r => r.score == n) =
      l.filter (fun r => r.score == n) := by
  induction l with
  | nil => rfl
  | cons x xs ih =>
    show (insertByScoreDesc x (sortByScoreDesc xs)).filter _ = _
    by_cases hx : x.score = n
    · rw [filter_insertByScoreDesc_pos (p := fun r => r.score == n)
        (by simp [hx]) (fun y hy => by
          simp only [beq_eq_false_iff_ne, ne_eq]
          omega), ih]
      simp [List.filter, hx]
    · rw [filter_insertByScoreDesc_neg (p := fun r => r.score == n) (by simp [hx]), ih]
      have hb : (x.score == n) = false := by simp [hx]
      simp [List.filter, hb]

/-- Lemma: `re.search` finds its match at some suffix of the input. -/
theorem reScan_eq_some {α : Type} {p : Str → Option α} {s : Str} {v : α}
    (h : reScan p s = some v) : ∃ t, t <:+ s ∧ p t = some v := by
  induction s with
  | nil => exact ⟨[], List.suffix_refl [], h⟩
  | cons c rest ih =>
    rw [reScan] at h
    cases hp : p (c :: rest) with
    | some w =>
      rw [hp] at h
      exact ⟨c :: rest, List.suffix_refl _, hp ▸ h⟩
    | none =>
      rw [hp] at h
      rcases ih h with ⟨t, ht, hpt⟩
      exact ⟨t, ht.trans (List.suffix_cons c rest), hpt⟩

/-! ## C9 -/

/-- C9 — Ranking stability and idempotence: the HR batch ranking step
`sorted(results, key=lambda x: x['score'], reverse=True)` is idempotent
(sorting twice yields the same order as sorting once), sorts by score
descending, and is stable: for every score value, the entries carrying that
score appear in the sorted output in exactly their original relative order.
(The "no mutation" part of the claim is inherent: `sortByScoreDesc` is a
pure function producing a derived list, as Python's `sorted` does.) -/
theorem C9_ranking_stable_idempotent (l : List HRResult) :
    sortByScoreDesc (sortByScoreDesc l) = sortByScoreDesc l ∧
    List.Pairwise (fun a b => b.score ≤ a.score) (sortByScoreDesc l) ∧
    ∀ n : Nat, (sortByScoreDesc l).filter (fun r => r.score == n) =
      l.filter (fun r => r.score == n) :=
  ⟨sortByScoreDesc_of_pairwise (pairwise_sortByScoreDesc l),
   pairwise_sortByScoreDesc l,
   fun n => filter_score_sortByScoreDesc l n⟩

/-! ## C4 -/



/-- C4 counterexample — the claim is false for the resume batch processor:
with N = 2 items where item 1's Completion Client call throws, the code
catches the exception inside `analyze_resume`, turns it into the string
`"Analysis error: ..."`, scores that string with the defaults (5, REVIEW) —
producing a success-shaped record, not a failure record — and then returns
the batch sorted by score descending, so the output order `[b, a]` is not
the input order `[a, b]`. -/
theorem C4_counterexample :
    (process_multiple_resumes PFile.content chainRunC4 chainRun2C4
        [⟨['a'], "t1".data⟩, ⟨['b'], "t2".data⟩]).map HRResult.filename = [['b'], ['a']] ∧
    ([['b'], ['a']] : List Str) ≠ [['a'], ['b']] ∧
    (process_multiple_resumes PFile.content chainRunC4 chainRun2C4
        [⟨['a'], "t1".data⟩, ⟨['b'], "t2".data⟩]).map HRResult.score = [9, 5] := by
  decide

/-- C4 amended — failure isolation holds for the invoice batch processor
`process_multiple_files`: when the per-item pipeline raises for item `k`
and succeeds for every other item, the batch returns exactly one result per
input item in input order, item `k`'s entry is the (unique) error record,
every other entry is a success record, and every entry equals the result of
running that item in a batch of its own. -/
theorem C4_amended_invoice_isolation (pipe : PFile → Except Str JsonObj)
    (files : List PFile) (k : Nat) (fk : PFile) (e : Str)
    (hfk : files.get? k = some fk)
    (hfail : pipe fk = .error e)
    (hok : ∀ j (hj : j < files.length), j ≠ k →
      (pipe (files.get ⟨j, hj⟩)).isOk = true) :
    (process_multiple_files pipe files).length = files.length ∧
    (process_multiple_files pipe files).get? k = some (.err fk.name e) ∧
    (∀ j f, files.get? j = some f →
      ∃ r, (process_multiple_files pipe files).get? j = some r ∧
        process_multiple_files pipe [f] = [r]) ∧
    (∀ j f, j ≠ k → files.get? j = some f →
      ∃ d, (process_multiple_files pipe files).get? j = some (.ok f.name d)) := by
  refine ⟨List.length_map _ _, ?_, ?_, ?_⟩
  · rw [process_multiple_files, List.get?_map, hfk]
    simp [hfail]
  · intro j f hf
    refine ⟨_, ?_, rfl⟩
    rw [process_multiple_files, List.get?_map, hf]
    rfl
  · intro j f hj hf
    rcases List.get?_eq_some.mp hf with ⟨hjlt, hget⟩
    have hiok : (pipe f).isOk = true := by
      have := hok j hjlt hj
      rwa [hget] at this
    cases hd : pipe f with
    | ok d =>
      refine ⟨d, ?_⟩
      rw [process_multiple_files, List.get?_map, hf]
      simp [hd]
    | error e' => rw [hd] at hiok; cases hiok



/-- C4 witness: the amended theorem at a concrete two-file batch whose
first item fails. -/
theorem C4_amended_invoice_isolation_witness :
    (process_multiple_files pipeC4 filesC4).length = filesC4.length ∧
    (process_multiple_files pipeC4 filesC4).get? 0 = some (.err ['a'] ("E".data)) := by
  obtain ⟨h1, h2, h3, h4⟩ :=
    C4_amended_invoice_isolation pipeC4 filesC4 0 ⟨['a'], []⟩ ("E".data)
      (by decide) (by decide) (by decide)
  exact ⟨h1, h2⟩

/-! ## C1 -/

/-- C1 counterexample — the claim ("the response parser never throws, even
when the string contains no parseable structured span") is false for the
invoice extractor: on a response with no structured span at all,
`json.loads` fails (modelled by the always-failing `J`), the `re.search`
recovery finds no span, and the code raises
`Exception("Unable to parse JSON from model response")` — modelled as
`Except.error`. -/
theorem C1_counterexample :
    extract_invoice_data (fun _ => .error ()) ("hello".data) =
      .error ("Unable to parse JSON from model response".data) := by
  decide

/-- C1 amended — the MCQ response parser is total as claimed: for every
`json.loads` behaviour and every raw response it returns a best-effort
record and never raises (the only raising operation, `json.loads`, is
guarded by `except json.JSONDecodeError`, which falls back to the heuristic
text parser); the invoice extractor's parse stage, by contrast, raises
whenever strict decoding fails and no brace-delimited span exists. -/
theorem C1_amended_parser_totality :
    (∀ (α : Type) (J : Str → Except Unit α) (response : Str),
      (parse_mcq_response J response).isOk = true) ∧
    (∀ (J : Str → Except Unit JsonObj) (response : Str),
      J (stripInvoiceResponse response) = .error () →
      extractSpan (stripInvoiceResponse response) = none →
      (extract_invoice_data J response).isOk = false) := by
  constructor
  · intro α J response
    cases h : extractSpan response with
    | some span =>
      cases hJ : J span with
      | ok v => simp only [parse_mcq_response, h, hJ]; rfl
      | error u => simp only [parse_mcq_response, h, hJ]; rfl
    | none => simp only [parse_mcq_response, h]; rfl
  · intro J response hJ hspan
    simp only [extract_invoice_data, hJ, hspan]; rfl

/-- C1 witness: the amended theorem at concrete inputs — an always-failing
decoder on the empty MCQ response, and the invoice parser on prose with no
braces. -/
theorem C1_amended_parser_totality_witness :
    (parse_mcq_response (fun _ => (.error () : Except Unit JsonObj)) []).isOk = true ∧
    (extract_invoice_data (fun _ => .error ()) ("no json here".data)).isOk = false :=
  ⟨C1_amended_parser_totality.1 JsonObj (fun _ => .error ()) [],
   C1_amended_parser_totality.2 (fun _ => .error ()) ("no json here".data)
     (by decide) (by decide)⟩

/-! ## C2 -/

/-- C2 counterexample — the claim ("the score extractor always returns an
integer within the valid range 1-10") is false: the captured integer is
returned unclamped, so `"MATCH SCORE: 99"` yields 99. -/
theorem C2_counterexample :
    parse_score_from_analysis ("MATCH SCORE: 99".data) = 99 ∧ ¬ (99 : Nat) ≤ 10 := by
  decide

/-- C2 amended — the score extractor is total and never raises (it is a
total function of the input string); when the leading `MATCH SCORE:`
pattern matches it returns that integer (unclamped, so the value may lie
outside 1-10); and in general the result is either the mid-range sentinel 5
or an integer genuinely extracted by one of the four ordered patterns at
some position of the input. -/
theorem C2_amended_score_extractor :
    (∀ (s : Str) (n : Nat), reScan scoreP1At s = some n →
      parse_score_from_analysis s = n) ∧
    (∀ s : Str, parse_score_from_analysis s = 5 ∨
      ∃ t, t <:+ s ∧
        (scoreP1At t = some (parse_score_from_analysis s) ∨
         scoreP2At t = some (parse_score_from_analysis s) ∨
         scoreP3At t = some (parse_score_from_analysis s) ∨
         scoreP4At t = some (parse_score_from_analysis s))) := by
  constructor
  · intro s n h
    rw [parse_score_from_analysis, h]
  · intro s
    rw [parse_score_from_analysis]
    cases h1 : reScan scoreP1At s with
    | some n =>
      rcases reScan_eq_some h1 with ⟨t, ht, hp⟩
      exact Or.inr ⟨t, ht, Or.inl hp⟩
    | none =>
      cases h2 : reScan scoreP2At s with
      | some n =>
        rcases reScan_eq_some h2 with ⟨t, ht, hp⟩
        exact Or.inr ⟨t, ht, Or.inr (Or.inl hp)⟩
      | none =>
        cases h3 : reScan scoreP3At s with
        | some n =>
          rcases reScan_eq_some h3 with ⟨t, ht, hp⟩
          exact Or.inr ⟨t, ht, Or.inr (Or.inr (Or.inl hp))⟩
        | none =>
          cases h4 : reScan scoreP4At s with
          | some n =>
            rcases reScan_eq_some h4 with ⟨t, ht, hp⟩
            exact Or.inr ⟨t, ht, Or.inr (Or.inr (Or.inr hp))⟩
          | none => exact Or.inl rfl

/-- C2 witness: the amended theorem's pattern-priority part at a concrete
analysis text. -/
theorem C2_amended_score_extractor_witness :
    parse_score_from_analysis ("MATCH SCORE: 7\nRECOMMENDATION: HIRE".data) = 7 :=
  C2_amended_score_extractor.1 ("MATCH SCORE: 7\nRECOMMENDATION: HIRE".data) 7 (by decide)

/-! ## C3 -/

/-- C3 counterexample — the claim ("the label extractor only ever returns a
member of the closed enum") is false for the HR recommendation extractor:
`RECOMMENDATION:\s*([A-Z]+)` captures any uppercase run, so
`"RECOMMENDATION: MAYBE"` yields the arbitrary string `"MAYBE"`, which is
not in HIRE/INTERVIEW/REJECT/REVIEW. -/
theorem C3_counterexample :
    parse_recommendation_from_analysis ("RECOMMENDATION: MAYBE".data) = "MAYBE".data ∧
    "MAYBE".data ∉
      ["HIRE".data, "INTERVIEW".data, "REJECT".data, "REVIEW".data] := by
  decide

/-- C3 amended — the ticket classifier `classify_text` is total and closed
as claimed: for every decoder behaviour and model output its result is a
member of `CATEGORIES`; the HR recommendation extractor is closed only on
its fallback paths (keyword scan and default `REVIEW`) — when the
`RECOMMENDATION:` pattern matches, the captured uppercase run is returned
verbatim and may be an arbitrary string. -/
theorem C3_amended_label_extractor :
    (∀ (J : Str → Except Unit (Option Str)) (content : Str),
      classify_text J content ∈ CATEGORIES) ∧
    (∀ s : Str, reScan recTagAt s = none →
      parse_recommendation_from_analysis s ∈
        ["HIRE".data, "INTERVIEW".data, "REJECT".data, "REVIEW".data]) := by
  constructor
  · intro J content
    cases hJ : J (pyStrip content) with
    | ok catOpt =>
      simp only [classify_text, hJ]
      by_cases h : (catOpt.getD ("OTHER".data)) ∈ CATEGORIES
      · rw [if_pos h]; exact h
      · rw [if_neg h]; decide
    | error u =>
      cases hf : CATEGORIES.find? (fun cat => pyContainsSub cat content) with
      | some cat =>
        simp only [classify_text, hJ, hf]
        exact List.mem_of_find?_eq_some hf
      | none =>
        simp only [classify_text, hJ, hf]
        decide
  · intro s h
    rw [parse_recommendation_from_analysis, h]
    by_cases h1 : (pyContainsSubCI ("hire".data) s || pyContainsSubCI ("recommend".data) s) = true
    · simp [h1]
    · simp only [h1, if_neg, Bool.not_eq_true, ite_false]
      by_cases h2 : pyContainsSubCI ("interview".data) s = true
      · simp [h2]
      · simp only [h2, ite_false]
        by_cases h3 : pyContainsSubCI ("reject".data) s = true
        · simp [h3]
        · simp [h3]

/-- C3 witness: the amended theorem at a concrete decoded category and a
concrete analysis with no `RECOMMENDATION:` tag. -/
theorem C3_amended_label_extractor_witness :
    classify_text (fun _ => .ok (some ("BILLING".data))) [] ∈ CATEGORIES ∧
    parse_recommendation_from_analysis ("sounds promising".data) ∈
      ["HIRE".data, "INTERVIEW".data, "REJECT".data, "REVIEW".data] :=
  ⟨C3_amended_label_extractor.1 (fun _ => .ok (some ("BILLING".data))) [],
   C3_amended_label_extractor.2 ("sounds promising".data) (by decide)⟩

/-! ## C5 -/



/-- C5 — code bug: for a response wrapped in a fence, the code slices
`response[7:-3]` in the `startswith("```\n")` branch, i.e. it removes 7
leading characters although the leading fence is only 4 (three backticks
plus the newline). The first three characters of the JSON content are
destroyed, the sliced string no longer contains a `\x7b`, the `re.search`
recovery then finds no span, and the parse of a perfectly fenced valid
object raises — while the content between the fences decodes fine on its
own. -/
theorem C5_code_bug_fence_slice :
    stripInvoiceResponse fencedC5 = ['"', ':', ' ', '1', '}', '\n'] ∧
    stripInvoiceResponse fencedC5 ≠ innerJsonC5 ∧
    extractSpan (stripInvoiceResponse fencedC5) = none ∧
    extract_invoice_data JC5 fencedC5 =
      .error ("Unable to parse JSON from model response".data) ∧
    JC5 innerJsonC5 = .ok [(['a'], ['1'])] := by
  decide

/-! ## C7 -/



/-- C7 counterexample — the claim ("every successfully parsed record
contains a key for each required field, with a sentinel default substituted
for omitted fields") is false: the code returns the decoded object as-is,
so parsing the valid response `"\x7b\x7d"` succeeds and yields a record with
no `invoice_number` key (nor any other required key) and no sentinel. -/
theorem C7_counterexample :
    extract_invoice_data JC7 ['{', '}'] = .ok [] ∧
    ([] : JsonObj).lookup ("invoice_number".data) = none := by
  decide

/-- C7 amended — a successful parse returns exactly what `json.loads`
produced (on the cleaned response or on the recovered span): the code never
adds keys or substitutes sentinel defaults, so required fields the model
omitted are simply absent. (The prompts ask the model itself to emit
`"Not specified"`; no code enforces it.) -/
theorem C7_amended_no_default_fill (J : Str → Except Unit JsonObj)
    (response : Str) (obj : JsonObj)
    (h : extract_invoice_data J response = .ok obj) :
    J (stripInvoiceResponse response) = .ok obj ∨
    J ((extractSpan (stripInvoiceResponse response)).getD []) = .ok obj := by
  rw [extract_invoice_data] at h
  cases hJ : J (stripInvoiceResponse response) with
  | ok d =>
    simp only [hJ] at h
    cases h
    exact Or.inl rfl
  | error u =>
    simp only [hJ] at h
    cases hs : extractSpan (stripInvoiceResponse response) with
    | some span =>
      simp only [hs] at h
      cases hJ2 : J span with
      | ok d =>
        simp only [hJ2] at h
        cases h
        exact Or.inr hJ2
      | error v =>
        simp only [hJ2] at h
        exact Except.noConfusion h
    | none =>
      simp only [hs] at h
      exact Except.noConfusion h

/-! ## C6 helper lemmas -/

theorem dropWhile_append_cons {p : Char → Bool} (a : Str) {c : Char} (d : Str)
    (hc : p c = false) :
    (a ++ c :: d).dropWhile p = a.dropWhile p ++ c :: d := by
  induction a with
  | nil => simp [List.dropWhile, hc]
  | cons x xs ih =>
    cases hx : p x
    · simp [List.dropWhile_cons, hx]
    · simp [List.dropWhile_cons, hx, ih]

theorem dropWhile_eq_nil_of_all {p : Char → Bool} {a : Str}
    (h : ∀ x ∈ a, p x = true) : a.dropWhile p = [] := by
  induction a with
  | nil => rfl
  | cons x xs ih =>
    simp only [List.dropWhile, h x (List.mem_cons_self x xs)]
    exact ih (fun y hy => h y (List.mem_cons_of_mem x hy))

/-- Stripping a string in which a brace-delimited span is embedded only
trims whitespace off the outer prose, never off the span. -/
theorem pyStrip_embedded (pre mid post : Str) :
    pyStrip (pre ++ '{' :: mid ++ '}' :: post) =
      stripL pre ++ '{' :: mid ++ '}' :: stripR post := by
  simp only [pyStrip, stripL, stripR]
  rw [show (pre ++ '{' :: mid ++ '}' :: post : Str) =
        pre ++ '{' :: (mid ++ '}' :: post) from by simp]
  rw [dropWhile_append_cons pre (mid ++ '}' :: post) (by decide)]
  rw [show (pre.dropWhile pySpace ++ '{' :: (mid ++ '}' :: post)).reverse =
        post.reverse ++ '}' :: (mid.reverse ++ '{' :: (pre.dropWhile pySpace).reverse)
      from by simp]
  rw [dropWhile_append_cons post.reverse
        (mid.reverse ++ '{' :: (pre.dropWhile pySpace).reverse) (by decide)]
  simp

/-- On a string of shape `prose ++ span ++ prose` — no `\x7b` in the
leading prose, no `\x7d` in the trailing prose — the greedy
`re.search(r'\{.*\}', ..., DOTALL)` recovers exactly the span. -/
theorem extractSpan_embedded (pre mid post : Str)
    (hpre : ∀ c ∈ pre, c ≠ '{') (hpost : ∀ c ∈ post, c ≠ '}') :
    extractSpan (pre ++ '{' :: mid ++ '}' :: post) = some ('{' :: mid ++ ['}']) := by
  rw [extractSpan]
  rw [show ((pre ++ '{' :: mid ++ '}' :: post : Str)).reverse =
        post.reverse ++ '}' :: (mid.reverse ++ '{' :: pre.reverse) from by simp]
  rw [dropWhile_append_cons post.reverse (mid.reverse ++ '{' :: pre.reverse)
    (by decide)]
  rw [dropWhile_eq_nil_of_all (p := fun c => decide (c ≠ '}'))
    (fun x hx => by
      simp only [decide_eq_true_eq]
      exact hpost x (List.mem_reverse.mp hx))]
  rw [show (([] : Str) ++ '}' :: (mid.reverse ++ '{' :: pre.reverse)).reverse =
        pre ++ '{' :: (mid ++ ['}']) from by simp]
  rw [dropWhile_append_cons pre (mid ++ ['}']) (by decide)]
  rw [dropWhile_eq_nil_of_all (p := fun c => decide (c ≠ '{'))
    (fun x hx => by
      simp only [decide_eq_true_eq]
      exact hpre x hx)]
  rfl

theorem pyStarts_append_mono {p q s : Str} (h : pyStarts (p ++ q) s = true) :
    pyStarts p s = true := by
  simp only [pyStarts, decide_eq_true_eq] at h ⊢
  have h3 : (s.take ((p ++ q).length)).take p.length = (p ++ q).take p.length := by
    rw [h]
  rw [List.take_take, List.length_append,
    Nat.min_eq_left (Nat.le_add_right _ _), List.take_left] at h3
  exact h3

theorem pyStarts_false_of_head {p s : Str} (hp : p ≠ [])
    (hne : p.head? ≠ s.head?) : pyStarts p s = false := by
  cases p with
  | nil => exact absurd rfl hp
  | cons a p' =>
    cases s with
    | nil => simp [pyStarts]
    | cons b s' =>
      simp only [List.head?_cons, ne_eq, Option.some.injEq] at hne
      simp only [pyStarts, List.length_cons, List.take_succ_cons,
        decide_eq_false_iff_not]
      intro hcontra
      exact hne ((List.cons.injEq b _ a p').mp hcontra).1.symm

theorem mem_of_mem_dropWhile {p : Char → Bool} {a : Str} {c : Char}
    (h : c ∈ a.dropWhile p) : c ∈ a := by
  induction a with
  | nil => exact h
  | cons x xs ih =>
    cases hx : p x
    · simp only [List.dropWhile_cons, hx, Bool.false_eq_true, if_false] at h
      exact h
    · simp only [List.dropWhile_cons, hx, if_true] at h
      exact List.mem_cons_of_mem x (ih h)

theorem mem_of_mem_stripL {a : Str} {c : Char} (h : c ∈ stripL a) : c ∈ a :=
  mem_of_mem_dropWhile h

theorem mem_of_mem_stripR {a : Str} {c : Char} (h : c ∈ stripR a) : c ∈ a := by
  rw [stripR, List.mem_reverse] at h
  exact List.mem_reverse.mp (mem_of_mem_dropWhile h)

/-! ## C6 -/

/-- C6 — Tier-2 equivalence, confirmed for the invoice parser: whenever the
raw response is a valid brace-delimited span (the region from the first
`\x7b` to the last `\x7d`, which `json.loads` accepts) surrounded by
extraneous prose (no `\x7b` before, no `\x7d` after, no leading code fence,
and the whole string does not itself decode), the recovered-substring tier
returns exactly the record that the strict tier returns on the isolated
span alone. -/
theorem C6_tier2_recovers_tier1 (J : Str → Except Unit JsonObj)
    (pre mid post : Str) (r : JsonObj)
    (hpre : ∀ c ∈ pre, c ≠ '{')
    (hpost : ∀ c ∈ post, c ≠ '}')
    (hfence : pyStarts ("```".data) (pyStrip (pre ++ '{' :: mid ++ '}' :: post)) = false)
    (htier1 : J (pyStrip (pre ++ '{' :: mid ++ '}' :: post)) = .error ())
    (hspan : J ('{' :: mid ++ ['}']) = .ok r) :
    extract_invoice_data J (pre ++ '{' :: mid ++ '}' :: post) = .ok r ∧
    extract_invoice_data J ('{' :: mid ++ ['}']) = .ok r := by
  have hfence4 : pyStarts ("```\n".data) (pyStrip (pre ++ '{' :: mid ++ '}' :: post)) = false := by
    by_contra hc
    rw [Bool.not_eq_false] at hc
    rw [show ("```\n".data : Str) = "```".data ++ "\n".data from by decide] at hc
    rw [pyStarts_append_mono hc] at hfence
    cases hfence
  have hstrip : stripInvoiceResponse (pre ++ '{' :: mid ++ '}' :: post) =
      pyStrip (pre ++ '{' :: mid ++ '}' :: post) := by
    rw [stripInvoiceResponse]
    simp only [hfence, hfence4, Bool.false_eq_true, if_false]
  have hspanEq : extractSpan (pyStrip (pre ++ '{' :: mid ++ '}' :: post)) =
      some ('{' :: mid ++ ['}']) := by
    rw [pyStrip_embedded]
    exact extractSpan_embedded _ _ _
      (fun c hc => hpre c (mem_of_mem_stripL hc))
      (fun c hc => hpost c (mem_of_mem_stripR hc))
  constructor
  · simp only [extract_invoice_data, hstrip, htier1, hspanEq, hspan]
  · have hb1 : pyStarts ("```\n".data) ('{' :: mid ++ ['}']) = false := by
      apply pyStarts_false_of_head (by decide)
      simp only [List.cons_append, List.head?_cons]
      decide
    have hb2 : pyStarts ("```".data) ('{' :: mid ++ ['}']) = false := by
      apply pyStarts_false_of_head (by decide)
      simp only [List.cons_append, List.head?_cons]
      decide
    have hps : pyStrip ('{' :: mid ++ ['}']) = '{' :: mid ++ ['}'] :=
      pyStrip_embedded [] mid []
    have hstrip2 : stripInvoiceResponse ('{' :: mid ++ ['}']) = '{' :: mid ++ ['}'] := by
      rw [stripInvoiceResponse, hps]
      simp only [hb1, hb2, Bool.false_eq_true, if_false]
    simp only [extract_invoice_data, hstrip2, hspan]



/-- C6 witness: the spec's own example scenario — a span surrounded by
chatty prose recovers the same record as parsing the span alone. -/
theorem C6_tier2_recovers_tier1_witness :
    extract_invoice_data JC6
        ("Sure! ".data ++ '{' :: "\"a\":1".data ++ '}' :: " ok".data) =
      .ok [(['a'], ['1'])] ∧
    extract_invoice_data JC6 ('{' :: "\"a\":1".data ++ ['}']) = .ok [(['a'], ['1'])] :=
  C6_tier2_recovers_tier1 JC6 ("Sure! ".data) ("\"a\":1".data) (" ok".data)
    [(['a'], ['1'])] (by decide) (by decide) (by decide) (by decide) (by decide)

/-! ## C8 and C10: the heuristic line parser -/

/-- Items emitted by `flushQ` are exactly the current candidate question
with the collected options and the constant answer fields, and only when
both are non-empty. -/
theorem mem_flushQ {curQ : Option Str} {curOpts : List Str} {q : MCQ}
    (hq : q ∈ flushQ curQ curOpts) :
    ∃ s, curQ = some s ∧ curOpts ≠ [] ∧
      q = { question := s, options := curOpts, correct_answer := ['A'],
            explanation := "Please verify the correct answer.".data } := by
  cases curQ with
  | none => cases hq
  | some s =>
    rw [flushQ] at hq
    by_cases h : s.isEmpty || curOpts.isEmpty
    · rw [if_pos h] at hq
      cases hq
    · rw [if_neg h] at hq
      rcases List.mem_singleton.mp hq with rfl
      refine ⟨s, rfl, ?_, rfl⟩
      intro hnil
      exact h (by simp [hnil])

/-- Soundness invariant of the `parse_text_response` line loop: assuming the
current candidate question (if any) is a stripped, `?`-containing,
non-option line of `L` and the collected options are stripped option lines
of `L`, every item the loop emits from lines drawn from `L` has a question
and options of that same shape, a non-empty option list, and the constant
answer fields. -/
theorem parseLines_sound (L : List Str) :
    ∀ (lines : List Str) (curQ : Option Str) (curOpts : List Str),
    (∀ l ∈ lines, l ∈ L) →
    (∀ s, curQ = some s →
      pyHasChar '?' s = true ∧ isOptionLine s = false ∧ s ∈ L.map pyStrip) →
    (∀ o ∈ curOpts, isOptionLine o = true ∧ o ∈ L.map pyStrip) →
    ∀ q ∈ parseLines lines curQ curOpts,
      q.options ≠ [] ∧
      pyHasChar '?' q.question = true ∧
      isOptionLine q.question = false ∧
      q.question ∈ L.map pyStrip ∧
      (∀ o ∈ q.options, isOptionLine o = true ∧ o ∈ L.map pyStrip) ∧
      q.correct_answer = ['A'] ∧
      q.explanation = "Please verify the correct answer.".data := by
  intro lines
  induction lines with
  | nil =>
    intro curQ curOpts hsub hcq hco q hq
    rcases mem_flushQ hq with ⟨s, rfl, hopts, rfl⟩
    rcases hcq s rfl with ⟨h1, h2, h3⟩
    exact ⟨hopts, h1, h2, h3, hco, rfl, rfl⟩
  | cons line rest ih =>
    intro curQ curOpts hsub hcq hco q hq
    have hsub' : ∀ l ∈ rest, l ∈ L := fun l hl => hsub l (List.mem_cons_of_mem line hl)
    have hline : pyStrip line ∈ L.map pyStrip :=
      List.mem_map_of_mem pyStrip (hsub line (List.mem_cons_self line rest))
    rw [parseLines] at hq
    by_cases he : (pyStrip line).isEmpty
    · rw [if_pos he] at hq
      exact ih curQ curOpts hsub' hcq hco q hq
    · rw [if_neg he] at hq
      by_cases hques : (pyHasChar '?' (pyStrip line) && !isOptionLine (pyStrip line)) = true
      · rw [if_pos hques] at hq
        rcases Bool.and_eq_true_iff.mp hques with ⟨hqm, hno⟩
        rcases List.mem_append.mp hq with hql | hqr
        · rcases mem_flushQ hql with ⟨s, rfl, hopts, rfl⟩
          rcases hcq s rfl with ⟨h1, h2, h3⟩
          exact ⟨hopts, h1, h2, h3, hco, rfl, rfl⟩
        · refine ih (some (pyStrip line)) [] hsub' ?_ ?_ q hqr
          · intro s hs
            cases hs
            exact ⟨hqm, by simpa using hno, hline⟩
          · intro o ho
            cases ho
      · rw [if_neg hques] at hq
        by_cases hopt : isOptionLine (pyStrip line) = true
        · rw [if_pos hopt] at hq
          refine ih curQ (curOpts ++ [pyStrip line]) hsub' hcq ?_ q hq
          intro o ho
          rcases List.mem_append.mp ho with h | h
          · exact hco o h
          · rcases List.mem_singleton.mp h with rfl
            exact ⟨hopt, hline⟩
        · rw [if_neg hopt] at hq
          exact ih curQ curOpts hsub' hcq hco q hq

/-- C8 — the heuristic line parse, confirmed: `parse_text_response` splits
the input into lines; every emitted item's question is a stripped line
containing a question mark and not prefixed by an option marker; its
options are stripped lines prefixed by one of `A) B) C) D)`; and items that
collected no options are discarded, so every emitted item has a non-empty
option list. -/
theorem C8_heuristic_line_parse (response : Str) (q : MCQ)
    (hq : q ∈ (parse_text_response response).questions) :
    q.options ≠ [] ∧
    pyHasChar '?' q.question = true ∧
    isOptionLine q.question = false ∧
    q.question ∈ (splitLines response).map pyStrip ∧
    (∀ o ∈ q.options, isOptionLine o = true ∧ o ∈ (splitLines response).map pyStrip) := by
  have h := parseLines_sound (splitLines response) (splitLines response) none []
    (fun l hl => hl) (fun s hs => Option.noConfusion hs)
    (fun o ho => absurd ho (List.not_mem_nil o)) q hq
  exact ⟨h.1, h.2.1, h.2.2.1, h.2.2.2.1, h.2.2.2.2.1⟩

/-- C8 witness: the theorem at a concrete three-line response producing one
question with two options. -/
theorem C8_heuristic_line_parse_witness :
    ({ question := "What is 2+2?".data,
       options := ["A) 3".data, "B) 4".data],
       correct_answer := ['A'],
       explanation := "Please verify the correct answer.".data } : MCQ).options ≠ [] ∧
    pyHasChar '?' ("What is 2+2?".data) = true ∧
    isOptionLine ("What is 2+2?".data) = false ∧
    ("What is 2+2?".data) ∈ (splitLines ("What is 2+2?\nA) 3\nB) 4".data)).map pyStrip := by
  have h := C8_heuristic_line_parse ("What is 2+2?\nA) 3\nB) 4".data)
    { question := "What is 2+2?".data,
      options := ["A) 3".data, "B) 4".data],
      correct_answer := ['A'],
      explanation := "Please verify the correct answer.".data } (by decide)
  exact ⟨h.1, h.2.1, h.2.2.1, h.2.2.2.1⟩

/-- C10 — confirmed: every question item produced by the heuristic text
fallback parser has `correct_answer` set to the constant `"A"` and
`explanation` set to `"Please verify the correct answer."`; the fallback
never derives an answer key from the content. -/
theorem C10_fallback_constant_answer (response : Str) :
    ((parse_text_response response).questions.all
      (fun q => q.correct_answer == ['A'] &&
        q.explanation == "Please verify the correct answer.".data)) = true := by
  rw [List.all_eq_true]
  intro q hq
  have h := parseLines_sound (splitLines response) (splitLines response) none []
    (fun l hl => hl) (fun s hs => Option.noConfusion hs)
    (fun o ho => absurd ho (List.not_mem_nil o)) q hq
  simp [h.2.2.2.2.2.1, h.2.2.2.2.2.2]

/-- C7 witness: the amended theorem at the concrete empty-object parse. -/
theorem C7_amended_no_default_fill_witness :
    JC7 (stripInvoiceResponse ['{', '}']) = .ok [] ∨
    JC7 ((extractSpan (stripInvoiceResponse ['{', '}'])).getD []) = .ok [] :=
  C7_amended_no_default_fill JC7 ['{', '}'] [] (by decide)

end LCP
